import Mathlib

/-!
Shallow embedding of the social-network storage layer.

`MemStorage` mirrors the in-memory store of `storage.ts`: five JS `Map`s
(modelled as lists in insertion order, since `Array.from(map.values())`
iterates in insertion order and `Map.set` on an existing key replaces in
place) plus one monotone id counter per entity kind.  Timestamps are `Nat`
(millisecond clock values); operations that call `new Date()` take the
current time as an explicit `now` argument.  The route handlers of the
Express layer that carry behaviour of their own (duplicate-like and
self-follow/duplicate-follow rejection) are embedded as `likeRoute` and
`followRoute`.
-/

namespace Social

/-- `users` table row (schema.ts): `bio` is nullable. -/
structure User where
  id : Nat
  username : String
  password : String
  displayName : String
  bio : Option String
  avatarUrl : String
  createdAt : Nat
deriving Repr, DecidableEq

/-- `posts` table row: `imageUrl` is nullable. -/
structure Post where
  id : Nat
  userId : Nat
  content : String
  imageUrl : Option String
  createdAt : Nat
deriving Repr, DecidableEq

/-- `comments` table row. -/
structure Comment where
  id : Nat
  postId : Nat
  userId : Nat
  content : String
  createdAt : Nat
deriving Repr, DecidableEq

/-- `likes` table row. -/
structure Like where
  id : Nat
  postId : Nat
  userId : Nat
  createdAt : Nat
deriving Repr, DecidableEq

/-- `follows` table row. -/
structure Follow where
  id : Nat
  followerId : Nat
  followingId : Nat
  createdAt : Nat
deriving Repr, DecidableEq

/-- `InsertUser` payload (id and createdAt are store-assigned); `bio` and
`avatarUrl` are optional in the insert schema. -/
structure InsertUser where
  username : String
  password : String
  displayName : String
  bio : Option String
  avatarUrl : Option String
deriving Repr, DecidableEq

/-- `InsertPost` payload. -/
structure InsertPost where
  userId : Nat
  content : String
  imageUrl : Option String
deriving Repr, DecidableEq

/-- `InsertComment` payload. -/
structure InsertComment where
  postId : Nat
  userId : Nat
  content : String
deriving Repr, DecidableEq

/-- `InsertLike` payload. -/
structure InsertLike where
  postId : Nat
  userId : Nat
deriving Repr, DecidableEq

/-- `InsertFollow` payload. -/
structure InsertFollow where
  followerId : Nat
  followingId : Nat
deriving Repr, DecidableEq

/-- The `MemStorage` state: the five maps (keyed by the entity's own `id`,
kept in insertion order) and the five id counters. -/
structure MemStorage where
  users : List User
  posts : List Post
  comments : List Comment
  likes : List Like
  follows : List Follow
  currentUserId : Nat
  currentPostId : Nat
  currentCommentId : Nat
  currentLikeId : Nat
  currentFollowId : Nat
deriving Repr, DecidableEq

/-- `MemStorage`'s constructor: empty maps, every counter at 1. -/
def initStorage : MemStorage :=
  { users := [], posts := [], comments := [], likes := [], follows := []
    currentUserId := 1, currentPostId := 1, currentCommentId := 1
    currentLikeId := 1, currentFollowId := 1 }

/-- `Map.set k x` on a map whose values carry their own key: replace in
place when the key is present (preserving iteration order), else append. -/
def mapSet (getId : α → Nat) (l : List α) (k : Nat) (x : α) : List α :=
  if l.any (fun y => getId y == k) then
    l.map (fun y => if getId y == k then x else y)
  else l ++ [x]

/-- `Map.delete k`: the map without the keyed entry, and whether it was
present (the `Boolean` that `Map.delete` returns). -/
def mapDelete (getId : α → Nat) (l : List α) (k : Nat) : List α × Bool :=
  (l.filter (fun y => getId y != k), l.any (fun y => getId y == k))

/-- `MemStorage.getUser`: `this.users.get(id)`. -/
def getUser (s : MemStorage) (id : Nat) : Option User :=
  s.users.find? (fun u => u.id == id)

/-- `MemStorage.getLikesByPost`: all likes whose `postId` matches. -/
def getLikesByPost (s : MemStorage) (postId : Nat) : List Like :=
  s.likes.filter (fun l => l.postId == postId)

/-- `MemStorage.getLike`: the like with the given `(postId, userId)` pair,
if any. -/
def getLike (s : MemStorage) (postId userId : Nat) : Option Like :=
  s.likes.find? (fun l => l.postId == postId && l.userId == userId)

/-- `MemStorage.getFollow`: the follow row with the given
`(followerId, followingId)` pair, if any. -/
def getFollow (s : MemStorage) (followerId followingId : Nat) : Option Follow :=
  s.follows.find? (fun f => f.followerId == followerId && f.followingId == followingId)

/-- A comment joined with its author, as returned by `getCommentsByPost`.
The source asserts the author exists (`user!`); a comment whose author is
missing yields an absent (`undefined`) user value. -/
structure CommentWithUser where
  comment : Comment
  user : Option User
deriving Repr, DecidableEq

/-- `MemStorage.getCommentsByPost`: comments of the post, each joined with
`getUser(comment.userId)`. -/
def getCommentsByPost (s : MemStorage) (postId : Nat) : List CommentWithUser :=
  (s.comments.filter (fun c => c.postId == postId)).map
    (fun c => { comment := c, user := getUser s c.userId })

/-- `MemStorage.getFollowers`: one entry per follow row with matching
`followingId`, each mapped through `getUser(relation.followerId)`.  The
source's `user!` is a type-level assertion only: when the referenced user
does not exist the array slot holds `undefined`, modelled as `none`. -/
def getFollowers (s : MemStorage) (userId : Nat) : List (Option User) :=
  (s.follows.filter (fun f => f.followingId == userId)).map
    (fun f => getUser s f.followerId)

/-- `MemStorage.getFollowing`: symmetric to `getFollowers`, joining on
`followerId` and resolving `followingId`. -/
def getFollowing (s : MemStorage) (userId : Nat) : List (Option User) :=
  (s.follows.filter (fun f => f.followerId == userId)).map
    (fun f => getUser s f.followingId)

/-- `DatabaseStorage.getFollowers`: the SQL variant resolves followers with
an `innerJoin` on `users`, so rows whose user is missing produce no output
row. -/
def dbGetFollowers (s : MemStorage) (userId : Nat) : List User :=
  (s.follows.filter (fun f => f.followingId == userId)).filterMap
    (fun f => getUser s f.followerId)

/-- An enriched post (`PostWithUser`): the post's own fields plus the
embedded author (absent if missing), like/comment counts, and the optional
viewer-relative `isLiked` flag (`undefined` when absent). -/
structure PostWithUser where
  post : Post
  user : Option User
  likeCount : Nat
  commentCount : Nat
  isLiked : Option Bool
deriving Repr, DecidableEq

/-- `MemStorage.enrichPosts` applied to a single post.  Note the source
guards with `if (currentUserId)`, a JS truthiness test: a viewer id of `0`
(which the store never assigns — counters start at 1) is falsy and leaves
`isLiked` undefined. -/
def enrichPost (s : MemStorage) (p : Post) (currentUserId : Option Nat) : PostWithUser :=
  { post := p
    user := getUser s p.userId
    likeCount := (getLikesByPost s p.id).length
    commentCount := (getCommentsByPost s p.id).length
    isLiked :=
      match currentUserId with
      | some uid => if uid != 0 then some (getLike s p.id uid).isSome else none
      | none => none }

/-- `MemStorage.enrichPosts`: independent per-post enrichment, order
preserved. -/
def enrichPosts (s : MemStorage) (ps : List Post) (currentUserId : Option Nat) :
    List PostWithUser :=
  ps.map (fun p => enrichPost s p currentUserId)

/-- An enriched user (`UserWithStats`). -/
structure UserWithStats where
  user : User
  followersCount : Nat
  followingCount : Nat
  isFollowing : Option Bool
deriving Repr, DecidableEq

/-- `MemStorage.getUserWithStats`: absent if the user does not exist;
otherwise attaches follower/following counts and, when a (truthy) viewer id
is supplied, `isFollowing` = existence of a follow row viewer → subject. -/
def getUserWithStats (s : MemStorage) (userId : Nat) (currentUserId : Option Nat) :
    Option UserWithStats :=
  (getUser s userId).map fun u =>
    { user := u
      followersCount := (getFollowers s userId).length
      followingCount := (getFollowing s userId).length
      isFollowing :=
        match currentUserId with
        | some v => if v != 0 then some (getFollow s v userId).isSome else none
        | none => none }

/-- The sort comparator of both feeds:
`(a, b) => b.createdAt.getTime() - a.createdAt.getTime()` keeps `a` before
`b` exactly when `a` is at least as new, i.e. newest first; JS `sort` is
stable. -/
def newerFirst (a b : Post) : Bool := b.createdAt ≤ a.createdAt

/-- `Promise.all` over an array that may contain `undefined` slots whose
fields the caller then reads: collect all values, failing (`none`, the
thrown `TypeError`) as soon as one slot is absent. -/
def allSome : List (Option α) → Option (List α)
  | [] => some []
  | none :: _ => none
  | some a :: rest => (allSome rest).map (a :: ·)

/-- `MemStorage.getFeedForUser`: resolve the following set, project ids
(`following.map(user => user.id)` throws when a followed user is missing,
hence the `Option` result), filter posts to followed authors or the user's
own, sort newest first, enrich with the viewer. -/
def getFeedForUser (s : MemStorage) (userId : Nat) : Option (List PostWithUser) :=
  (allSome (getFollowing s userId)).map fun followedUsers =>
    let followingIds := followedUsers.map (fun u => u.id)
    let feedPosts :=
      (s.posts.filter (fun p => followingIds.contains p.userId || p.userId == userId)).mergeSort
        newerFirst
    enrichPosts s feedPosts (some userId)

/-- `MemStorage.getDiscoverFeed`: all posts, newest first, enriched with no
viewer. -/
def getDiscoverFeed (s : MemStorage) : List PostWithUser :=
  enrichPosts s (s.posts.mergeSort newerFirst) none

/-- `MemStorage.getPost`: the post, enriched with no viewer, or absent. -/
def getPost (s : MemStorage) (id : Nat) : Option PostWithUser :=
  (s.posts.find? (fun p => p.id == id)).map (fun p => enrichPost s p none)

/-- `MemStorage.deletePost`: first delete every comment with matching
`postId`, then every like with matching `postId`, then the post itself;
returns whether the post existed.  The cascade runs regardless of whether
the post exists. -/
def deletePost (s : MemStorage) (id : Nat) : Bool × MemStorage :=
  let comments' := s.comments.filter (fun c => c.postId != id)
  let likes' := s.likes.filter (fun l => l.postId != id)
  let (posts', existed) := mapDelete Post.id s.posts id
  (existed, { s with comments := comments', likes := likes', posts := posts' })

/-- `MemStorage.createLike`: fresh id from the counter, server-set
timestamp, insert. -/
def createLike (s : MemStorage) (insertLike : InsertLike) (now : Nat) : Like × MemStorage :=
  let id := s.currentLikeId
  let l : Like := { id := id, postId := insertLike.postId, userId := insertLike.userId
                    createdAt := now }
  (l, { s with likes := mapSet Like.id s.likes id l, currentLikeId := id + 1 })

/-- `MemStorage.createFollow`: fresh id from the counter, server-set
timestamp, insert. -/
def createFollow (s : MemStorage) (insertFollow : InsertFollow) (now : Nat) :
    Follow × MemStorage :=
  let id := s.currentFollowId
  let f : Follow := { id := id, followerId := insertFollow.followerId
                      followingId := insertFollow.followingId, createdAt := now }
  (f, { s with follows := mapSet Follow.id s.follows id f, currentFollowId := id + 1 })

/-- Outcome of `POST /api/posts/:id/likes` (auth and id parsing aside). -/
inductive LikeRouteRes where
  | conflict
  | created (l : Like)
deriving Repr, DecidableEq

/-- The like-creation route: 409 Conflict when the `(post, user)` pair
already has a like, otherwise create and return 201. -/
def likeRoute (s : MemStorage) (reqUserId postId now : Nat) : LikeRouteRes × MemStorage :=
  match getLike s postId reqUserId with
  | some _ => (.conflict, s)
  | none =>
    let (l, s') := createLike s { postId := postId, userId := reqUserId } now
    (.created l, s')

/-- Outcome of `POST /api/users/:id/follow` (auth and id parsing aside). -/
inductive FollowRouteRes where
  | selfFollow
  | conflict
  | created (f : Follow)
deriving Repr, DecidableEq

/-- The follow-creation route: 400 when following oneself, 409 Conflict
when the pair already has a follow row, otherwise create and return 201. -/
def followRoute (s : MemStorage) (reqUserId followingId now : Nat) :
    FollowRouteRes × MemStorage :=
  if followingId == reqUserId then (.selfFollow, s)
  else
    match getFollow s reqUserId followingId with
    | some _ => (.conflict, s)
    | none =>
      let (f, s') := createFollow s { followerId := reqUserId, followingId := followingId } now
      (.created f, s')

/-- `needle` occurs at the start of `hay` (character-wise). -/
def startsWithSeq : List Char → List Char → Bool
  | [], _ => true
  | _ :: _, [] => false
  | a :: as, b :: bs => a == b && startsWithSeq as bs

/-- JS `String.prototype.includes`: `needle` occurs contiguously in
`hay`. -/
def includesSeq (needle : List Char) : List Char → Bool
  | [] => needle.isEmpty
  | b :: bs => startsWithSeq needle (b :: bs) || includesSeq needle bs

/-- The search predicate of `MemStorage.searchUsers`: the lowercased query
occurs in the lowercased username or display name. -/
def userMatches (q : String) (u : User) : Bool :=
  includesSeq (q.data.map Char.toLower) (u.username.data.map Char.toLower) ||
    includesSeq (q.data.map Char.toLower) (u.displayName.data.map Char.toLower)

/-- `MemStorage.searchUsers`: `if (!query) return []` (only the empty
string is falsy here), else case-insensitive substring filter over
username and display name. -/
def searchUsers (s : MemStorage) (query : String) : List User :=
  if query.data.isEmpty then []
  else s.users.filter (userMatches query)

/-- Embedding of `DatabaseStorage.searchUsers`: the same empty-query
guard, then Postgres `LIKE '%query%'` on username or display name — with
no lowercasing on either side, and `LIKE` is case-SENSITIVE in Postgres.
For a query free of the SQL wildcard characters `%` and `_` (queries
containing them would additionally act as wildcards, not modelled), the
pattern `%query%` holds exactly when the query occurs contiguously,
case-sensitively. -/
def dbSearchUsers (s : MemStorage) (query : String) : List User :=
  if query.data.isEmpty then []
  else s.users.filter (fun u =>
    includesSeq query.data u.username.data || includesSeq query.data u.displayName.data)

/-- `MemStorage.createUser`: fresh id, server-set timestamp; `avatarUrl`
falls back to a random default when absent or empty (JS `||`), `bio`
normalises the empty string to `null` likewise.  The random pick is an
explicit argument. -/
def createUser (s : MemStorage) (insertUser : InsertUser) (now : Nat)
    (avatarPick : String) : User × MemStorage :=
  let id := s.currentUserId
  let avatarUrl :=
    match insertUser.avatarUrl with
    | some a => if a = "" then avatarPick else a
    | none => avatarPick
  let bio :=
    match insertUser.bio with
    | some b => if b = "" then none else some b
    | none => none
  let u : User := { id := id, username := insertUser.username
                    password := insertUser.password
                    displayName := insertUser.displayName
                    bio := bio, avatarUrl := avatarUrl, createdAt := now }
  (u, { s with users := mapSet User.id s.users id u, currentUserId := id + 1 })

/-- `Partial<InsertUser>` as the store's `updateUser` receives it: fields
present in the patch replace the stored ones. -/
structure UserPatch where
  username : Option String
  password : Option String
  displayName : Option String
  bio : Option (Option String)
  avatarUrl : Option String
deriving Repr, DecidableEq

/-- `MemStorage.updateUser`: spread the patch over the stored user; absent
if the id is unknown. -/
def updateUser (s : MemStorage) (id : Nat) (patch : UserPatch) :
    Option User × MemStorage :=
  match getUser s id with
  | none => (none, s)
  | some u =>
    let u' : User := { u with
      username := patch.username.getD u.username
      password := patch.password.getD u.password
      displayName := patch.displayName.getD u.displayName
      bio := patch.bio.getD u.bio
      avatarUrl := patch.avatarUrl.getD u.avatarUrl }
    (some u', { s with users := mapSet User.id s.users id u' })

/-- `MemStorage.createPost`: fresh id, server-set timestamp, insert. -/
def createPost (s : MemStorage) (insertPost : InsertPost) (now : Nat) :
    Post × MemStorage :=
  let id := s.currentPostId
  let p : Post := { id := id, userId := insertPost.userId
                    content := insertPost.content
                    imageUrl := insertPost.imageUrl, createdAt := now }
  (p, { s with posts := mapSet Post.id s.posts id p, currentPostId := id + 1 })

/-- `Partial<InsertPost>` for `updatePost`. -/
structure PostPatch where
  userId : Option Nat
  content : Option String
  imageUrl : Option (Option String)
deriving Repr, DecidableEq

/-- `MemStorage.updatePost`: spread the patch over the stored post. -/
def updatePost (s : MemStorage) (id : Nat) (patch : PostPatch) :
    Option Post × MemStorage :=
  match s.posts.find? (fun p => p.id == id) with
  | none => (none, s)
  | some p =>
    let p' : Post := { p with
      userId := patch.userId.getD p.userId
      content := patch.content.getD p.content
      imageUrl := patch.imageUrl.getD p.imageUrl }
    (some p', { s with posts := mapSet Post.id s.posts id p' })

/-- `MemStorage.createComment`: fresh id, server-set timestamp, insert. -/
def createComment (s : MemStorage) (insertComment : InsertComment) (now : Nat) :
    Comment × MemStorage :=
  let id := s.currentCommentId
  let c : Comment := { id := id, postId := insertComment.postId
                       userId := insertComment.userId
                       content := insertComment.content, createdAt := now }
  (c, { s with comments := mapSet Comment.id s.comments id c
               currentCommentId := id + 1 })

/-- `MemStorage.deleteComment`. -/
def deleteComment (s : MemStorage) (id : Nat) : Bool × MemStorage :=
  let (comments', existed) := mapDelete Comment.id s.comments id
  (existed, { s with comments := comments' })

/-- `MemStorage.deleteLike`: locate by `(postId, userId)`, no-op when
absent, else delete by id. -/
def deleteLike (s : MemStorage) (postId userId : Nat) : Bool × MemStorage :=
  match getLike s postId userId with
  | none => (false, s)
  | some l =>
    let (likes', existed) := mapDelete Like.id s.likes l.id
    (existed, { s with likes := likes' })

/-- `MemStorage.deleteFollow`: locate by pair, no-op when absent, else
delete by id. -/
def deleteFollow (s : MemStorage) (followerId followingId : Nat) :
    Bool × MemStorage :=
  match getFollow s followerId followingId with
  | none => (false, s)
  | some f =>
    let (follows', existed) := mapDelete Follow.id s.follows f.id
    (existed, { s with follows := follows' })

/-- The five entity kinds of the store. -/
inductive EntityKind where
  | user
  | post
  | comment
  | like
  | follow
deriving Repr, DecidableEq

/-- The kind's id counter in a state. -/
def counterOf (k : EntityKind) (s : MemStorage) : Nat :=
  match k with
  | .user => s.currentUserId
  | .post => s.currentPostId
  | .comment => s.currentCommentId
  | .like => s.currentLikeId
  | .follow => s.currentFollowId

/-- One mutating store operation (read operations leave the state
unchanged and are irrelevant to identity assignment). -/
inductive Op where
  | createUser (iu : InsertUser) (now : Nat) (avatarPick : String)
  | updateUser (id : Nat) (patch : UserPatch)
  | createPost (ip : InsertPost) (now : Nat)
  | updatePost (id : Nat) (patch : PostPatch)
  | deletePost (id : Nat)
  | createComment (ic : InsertComment) (now : Nat)
  | deleteComment (id : Nat)
  | createLike (il : InsertLike) (now : Nat)
  | deleteLike (postId userId : Nat)
  | createFollow (ifl : InsertFollow) (now : Nat)
  | deleteFollow (followerId followingId : Nat)
deriving Repr

/-- Execute one operation, keeping only the resulting state. -/
def step (s : MemStorage) : Op → MemStorage
  | .createUser iu now pick => (createUser s iu now pick).2
  | .updateUser id patch => (updateUser s id patch).2
  | .createPost ip now => (createPost s ip now).2
  | .updatePost id patch => (updatePost s id patch).2
  | .deletePost id => (deletePost s id).2
  | .createComment ic now => (createComment s ic now).2
  | .deleteComment id => (deleteComment s id).2
  | .createLike il now => (createLike s il now).2
  | .deleteLike pid uid => (deleteLike s pid uid).2
  | .createFollow ifl now => (createFollow s ifl now).2
  | .deleteFollow a b => (deleteFollow s a b).2

/-- The identity an operation assigns in a state, if it is a create. -/
def assignedId (s : MemStorage) : Op → Option (EntityKind × Nat)
  | .createUser _ _ _ => some (.user, s.currentUserId)
  | .createPost _ _ => some (.post, s.currentPostId)
  | .createComment _ _ => some (.comment, s.currentCommentId)
  | .createLike _ _ => some (.like, s.currentLikeId)
  | .createFollow _ _ => some (.follow, s.currentFollowId)
  | _ => none

/-- The (kind, id) pairs assigned along a run of operations. -/
def idTrace (s : MemStorage) : List Op → List (EntityKind × Nat)
  | [] => []
  | op :: ops => (assignedId s op).toList ++ idTrace (step s op) ops

/-- The ids a run assigns for one entity kind, in assignment order. -/
def idsOfKind (k : EntityKind) (tr : List (EntityKind × Nat)) : List Nat :=
  tr.filterMap (fun e => if e.1 == k then some e.2 else none)

/-! ## Theorems about the claims -/

/-- C3: for every starting state and every post id, once `deletePost`
completes, `getLikesByPost` and `getCommentsByPost` on that id return
empty sequences and `getPost` returns absent: the cascade leaves no
comment or like row referencing the post visible to subsequent reads. -/
theorem deletePost_cascade_clean (s : MemStorage) (pid : Nat) :
    getLikesByPost (deletePost s pid).2 pid = [] ∧
    getCommentsByPost (deletePost s pid).2 pid = [] ∧
    getPost (deletePost s pid).2 pid = none := by
  refine ⟨?_, ?_, ?_⟩
  · simp only [deletePost, getLikesByPost, List.filter_filter]
    rw [List.filter_eq_nil_iff]
    intro l _
    simp only [Bool.and_eq_true, beq_iff_eq, bne_iff_ne, ne_eq, not_and]
    intro h h'
    exact h' h
  · simp only [deletePost, getCommentsByPost]
    rw [List.map_eq_nil_iff, List.filter_filter, List.filter_eq_nil_iff]
    intro c _
    simp only [Bool.and_eq_true, beq_iff_eq, bne_iff_ne, ne_eq, not_and]
    intro h h'
    exact h' h
  · simp only [deletePost, getPost, mapDelete, Option.map_eq_none']
    rw [List.find?_eq_none]
    intro p hp
    simp only [List.mem_filter, bne_iff_ne, ne_eq] at hp
    simp [hp.2]

/-- C10: when no post carries the requested id, `deletePost` reports
failure (`false`) and leaves the posts relation untouched, yet it still
runs the cascade unconditionally: afterwards the comments and likes
relations hold exactly the rows whose `postId` differs from the requested
id. -/
theorem deletePost_missing_still_cascades (s : MemStorage) (pid : Nat)
    (h : ∀ p ∈ s.posts, p.id ≠ pid) :
    (deletePost s pid).1 = false ∧
    (deletePost s pid).2.posts = s.posts ∧
    (∀ c, c ∈ (deletePost s pid).2.comments ↔ c ∈ s.comments ∧ c.postId ≠ pid) ∧
    (∀ l, l ∈ (deletePost s pid).2.likes ↔ l ∈ s.likes ∧ l.postId ≠ pid) := by
  refine ⟨?_, ?_, ?_, ?_⟩
  · simp only [deletePost, mapDelete, List.any_eq_false]
    intro p hp
    simpa using h p hp
  · simp only [deletePost, mapDelete]
    rw [List.filter_eq_self]
    intro p hp
    simpa using h p hp
  · intro c
    simp [deletePost, List.mem_filter]
  · intro l
    simp [deletePost, List.mem_filter]

/-- Concrete state for the C10 witness: no posts, but one comment and one
like that reference post id 7. -/
def w10State : MemStorage :=
  { initStorage with
    comments := [{ id := 1, postId := 7, userId := 1, content := "hi", createdAt := 3 }]
    likes := [{ id := 1, postId := 7, userId := 1, createdAt := 4 }]
    currentCommentId := 2, currentLikeId := 2 }

/-- Witness for C10 at a concrete input. -/
theorem deletePost_missing_still_cascades_witness :
    (∀ p ∈ w10State.posts, p.id ≠ 7) ∧
    ((deletePost w10State 7).1 = false ∧
      (deletePost w10State 7).2.posts = w10State.posts ∧
      (∀ c, c ∈ (deletePost w10State 7).2.comments ↔
        c ∈ w10State.comments ∧ c.postId ≠ 7) ∧
      (∀ l, l ∈ (deletePost w10State 7).2.likes ↔
        l ∈ w10State.likes ∧ l.postId ≠ 7)) :=
  ⟨by decide, deletePost_missing_still_cascades w10State 7 (by decide)⟩

/-- C6: when the `(post, user)` pair already has a like, the like route
answers 409 Conflict, leaves the whole state unchanged, and in particular
the post's like count is unaffected. -/
theorem duplicateLike_conflict (s : MemStorage) (me pid now : Nat) (l0 : Like)
    (h : getLike s pid me = some l0) :
    likeRoute s me pid now = (.conflict, s) ∧
    (getLikesByPost (likeRoute s me pid now).2 pid).length =
      (getLikesByPost s pid).length := by
  have hr : likeRoute s me pid now = (.conflict, s) := by
    simp [likeRoute, h]
  exact ⟨hr, by rw [hr]⟩

/-- Concrete state for the C6 witness: user 2 already likes post 1. -/
def w6State : MemStorage :=
  { initStorage with
    likes := [{ id := 1, postId := 1, userId := 2, createdAt := 9 }]
    currentLikeId := 2 }

/-- Witness for C6 at a concrete input. -/
theorem duplicateLike_conflict_witness :
    getLike w6State 1 2 = some { id := 1, postId := 1, userId := 2, createdAt := 9 } ∧
    (likeRoute w6State 2 1 50 = (.conflict, w6State) ∧
      (getLikesByPost (likeRoute w6State 2 1 50).2 1).length =
        (getLikesByPost w6State 1).length) :=
  ⟨by decide,
    duplicateLike_conflict w6State 2 1 50
      { id := 1, postId := 1, userId := 2, createdAt := 9 } (by decide)⟩

/-- C5: the follow route rejects a self-follow before writing anything
(the state, hence the follows relation, is returned unchanged); it rejects
an existing `(follower, followee)` pair with the distinct Conflict signal,
again without writing; otherwise it appends exactly one new follow row for
the pair, carrying the fresh server timestamp and the fresh counter id.
The well-formedness hypothesis (every stored follow id is below the
counter) holds in every state the store can reach. -/
theorem followRoute_spec (s : MemStorage) (me target now : Nat)
    (hwf : ∀ f ∈ s.follows, f.id < s.currentFollowId) :
    (me = target → followRoute s me target now = (.selfFollow, s)) ∧
    (∀ f0, me ≠ target → getFollow s me target = some f0 →
      followRoute s me target now = (.conflict, s)) ∧
    (me ≠ target → getFollow s me target = none →
      followRoute s me target now =
        (.created { id := s.currentFollowId, followerId := me, followingId := target
                    createdAt := now },
          { s with
              follows := s.follows ++
                [{ id := s.currentFollowId, followerId := me, followingId := target
                   createdAt := now }]
              currentFollowId := s.currentFollowId + 1 })) := by
  refine ⟨?_, ?_, ?_⟩
  · intro he
    simp [followRoute, he]
  · intro f0 hne hf
    simp [followRoute, hf, Ne.symm hne]
  · intro hne hf
    have hnotin : s.follows.any (fun y => y.id == s.currentFollowId) = false := by
      rw [List.any_eq_false]
      intro f hfmem
      have := hwf f hfmem
      simp only [beq_iff_eq]
      omega
    simp [followRoute, hf, Ne.symm hne, createFollow, mapSet, hnotin]

/-- Concrete state for the C5 witness: user 1 exists alongside one follow
row 1 → 2. -/
def w5State : MemStorage :=
  { initStorage with
    follows := [{ id := 1, followerId := 1, followingId := 2, createdAt := 1 }]
    currentFollowId := 2 }

/-- Witness for C5 at a concrete input (follower 1, target 3, so the
insertion branch is the live one). -/
theorem followRoute_spec_witness :
    (∀ f ∈ w5State.follows, f.id < w5State.currentFollowId) ∧
    ((1 = 3 → followRoute w5State 1 3 77 = (.selfFollow, w5State)) ∧
      (∀ f0, (1 : Nat) ≠ 3 → getFollow w5State 1 3 = some f0 →
        followRoute w5State 1 3 77 = (.conflict, w5State)) ∧
      ((1 : Nat) ≠ 3 → getFollow w5State 1 3 = none →
        followRoute w5State 1 3 77 =
          (.created { id := w5State.currentFollowId, followerId := 1, followingId := 3
                      createdAt := 77 },
            { w5State with
                follows := w5State.follows ++
                  [{ id := w5State.currentFollowId, followerId := 1, followingId := 3
                     createdAt := 77 }]
                currentFollowId := w5State.currentFollowId + 1 }))) :=
  ⟨by decide, followRoute_spec w5State 1 3 77 (by decide)⟩

/-- C1: enrichment with no viewer leaves `isLiked` entirely absent;
enrichment with a viewer identity `v` (a store-assigned identity, hence
positive — `0` would be falsy in the source's `if (currentUserId)` guard)
makes `isLiked` present and equal to the existence of a like row
`(p.id, v)`.  Analogously for `getUserWithStats` and `isFollowing`. -/
theorem viewer_flag_semantics (s : MemStorage) (p : Post) (uId v : Nat) (hv : 0 < v) :
    (enrichPost s p none).isLiked = none ∧
    (enrichPost s p (some v)).isLiked = some (getLike s p.id v).isSome ∧
    ((getLike s p.id v).isSome = true ↔
      ∃ l ∈ s.likes, l.postId = p.id ∧ l.userId = v) ∧
    (∀ uw, getUserWithStats s uId none = some uw → uw.isFollowing = none) ∧
    (∀ uw, getUserWithStats s uId (some v) = some uw →
      uw.isFollowing = some (getFollow s v uId).isSome ∧
      ((getFollow s v uId).isSome = true ↔
        ∃ f ∈ s.follows, f.followerId = v ∧ f.followingId = uId)) := by
  have hv' : v ≠ 0 := Nat.pos_iff_ne_zero.mp hv
  refine ⟨?_, ?_, ?_, ?_, ?_⟩
  · simp [enrichPost]
  · simp [enrichPost, hv']
  · simp [getLike, List.find?_isSome]
  · intro uw huw
    simp only [getUserWithStats, Option.map_eq_some'] at huw
    obtain ⟨u0, -, rfl⟩ := huw
    rfl
  · intro uw huw
    simp only [getUserWithStats, Option.map_eq_some'] at huw
    obtain ⟨u0, -, rfl⟩ := huw
    refine ⟨by simp [hv'], ?_⟩
    simp [getFollow, List.find?_isSome]

/-- Concrete state for the C1 witness: two users, a post by user 1 that
user 2 likes, and user 2 follows user 1. -/
def w1State : MemStorage :=
  { initStorage with
    users := [{ id := 1, username := "alice", password := "pw", displayName := "Alice",
                bio := none, avatarUrl := "a.png", createdAt := 0 },
              { id := 2, username := "bob", password := "pw", displayName := "Bob",
                bio := none, avatarUrl := "b.png", createdAt := 1 }]
    posts := [{ id := 1, userId := 1, content := "hello", imageUrl := none, createdAt := 2 }]
    likes := [{ id := 1, postId := 1, userId := 2, createdAt := 3 }]
    follows := [{ id := 1, followerId := 2, followingId := 1, createdAt := 4 }]
    currentUserId := 3, currentPostId := 2, currentLikeId := 2, currentFollowId := 2 }

/-- The post of `w1State`. -/
def w1Post : Post :=
  { id := 1, userId := 1, content := "hello", imageUrl := none, createdAt := 2 }

/-- Witness for C1 at a concrete input (viewer 2, subject user 1). -/
theorem viewer_flag_semantics_witness :
    0 < 2 ∧
    ((enrichPost w1State w1Post none).isLiked = none ∧
      (enrichPost w1State w1Post (some 2)).isLiked = some (getLike w1State w1Post.id 2).isSome ∧
      ((getLike w1State w1Post.id 2).isSome = true ↔
        ∃ l ∈ w1State.likes, l.postId = w1Post.id ∧ l.userId = 2) ∧
      (∀ uw, getUserWithStats w1State 1 none = some uw → uw.isFollowing = none) ∧
      (∀ uw, getUserWithStats w1State 1 (some 2) = some uw →
        uw.isFollowing = some (getFollow w1State 2 1).isSome ∧
        ((getFollow w1State 2 1).isSome = true ↔
          ∃ f ∈ w1State.follows, f.followerId = 2 ∧ f.followingId = 1))) :=
  ⟨by decide, viewer_flag_semantics w1State w1Post 1 2 (by decide)⟩

/-- C7 (amended): `getFollowers`/`getFollowing` return one entry per
matching follow row — the referenced user when it exists, an absent
placeholder when it does not; dangling rows are kept, not skipped, by the
in-memory store (no error is raised).  The database variant's inner join
is the one that drops the absent entries. -/
theorem follower_join_semantics (s : MemStorage) (u : Nat) (w : User) :
    (some w ∈ getFollowers s u ↔
      ∃ f ∈ s.follows, f.followingId = u ∧ getUser s f.followerId = some w) ∧
    (none ∈ getFollowers s u ↔
      ∃ f ∈ s.follows, f.followingId = u ∧ getUser s f.followerId = none) ∧
    (getFollowers s u).length =
      (s.follows.filter (fun f => f.followingId == u)).length ∧
    (some w ∈ getFollowing s u ↔
      ∃ f ∈ s.follows, f.followerId = u ∧ getUser s f.followingId = some w) ∧
    (none ∈ getFollowing s u ↔
      ∃ f ∈ s.follows, f.followerId = u ∧ getUser s f.followingId = none) ∧
    dbGetFollowers s u = (getFollowers s u).reduceOption := by
  refine ⟨?_, ?_, ?_, ?_, ?_, ?_⟩
  · simp [getFollowers, List.mem_map, List.mem_filter, and_assoc]
  · simp [getFollowers, List.mem_map, List.mem_filter, and_assoc]
  · simp [getFollowers]
  · simp [getFollowing, List.mem_map, List.mem_filter, and_assoc]
  · simp [getFollowing, List.mem_map, List.mem_filter, and_assoc]
  · simp [dbGetFollowers, getFollowers, List.reduceOption, List.filterMap_map,
      Function.comp]

/-- Concrete state refuting C7 as stated: user 1 follows the nonexistent
user 2. -/
def c7State : MemStorage :=
  { initStorage with
    users := [{ id := 1, username := "alice", password := "pw", displayName := "Alice",
                bio := none, avatarUrl := "a.png", createdAt := 0 }]
    follows := [{ id := 1, followerId := 1, followingId := 2, createdAt := 5 }]
    currentUserId := 2, currentFollowId := 2 }

/-- Counterexample to C7 as stated: the dangling follow row is not
silently skipped — the in-memory store returns a placeholder (absent)
entry for it. -/
theorem follower_join_placeholder_cex :
    getFollowing c7State 1 = [none] ∧ none ∈ getFollowing c7State 1 := by
  refine ⟨by decide, by decide⟩

/-- `startsWithSeq` decides "the needle is an initial segment". -/
theorem startsWithSeq_iff (needle : List Char) :
    ∀ hay, startsWithSeq needle hay = true ↔ ∃ t, hay = needle ++ t := by
  induction needle with
  | nil => intro hay; simp [startsWithSeq]
  | cons a as ih =>
    intro hay
    cases hay with
    | nil =>
      simp [startsWithSeq]
    | cons b bs =>
      rw [startsWithSeq]
      simp only [Bool.and_eq_true, beq_iff_eq, ih, List.cons_append, List.cons.injEq]
      constructor
      · rintro ⟨rfl, t, rfl⟩
        exact ⟨t, rfl, rfl⟩
      · rintro ⟨t, rfl, rfl⟩
        exact ⟨rfl, t, rfl⟩

/-- `includesSeq` decides "the needle occurs contiguously". -/
theorem includesSeq_iff (needle : List Char) :
    ∀ hay, includesSeq needle hay = true ↔ ∃ l₁ l₂, hay = l₁ ++ needle ++ l₂ := by
  intro hay
  induction hay with
  | nil =>
    rw [includesSeq]
    simp only [List.isEmpty_iff]
    constructor
    · rintro rfl
      exact ⟨[], [], rfl⟩
    · rintro ⟨l₁, l₂, h⟩
      rcases List.append_eq_nil.mp (List.append_eq_nil.mp h.symm).1 with ⟨-, h₂⟩
      exact h₂
  | cons b bs ih =>
    rw [includesSeq]
    simp only [Bool.or_eq_true, startsWithSeq_iff, ih]
    constructor
    · rintro (⟨t, ht⟩ | ⟨l₁, l₂, rfl⟩)
      · exact ⟨[], t, by simpa using ht⟩
      · exact ⟨b :: l₁, l₂, rfl⟩
    · rintro ⟨l₁, l₂, h⟩
      cases l₁ with
      | nil =>
        exact Or.inl ⟨l₂, by simpa using h⟩
      | cons x xs =>
        simp only [List.cons_append, List.cons.injEq] at h
        exact Or.inr ⟨xs, l₂, h.2⟩

/-- The scenario state of C8: handles alice, bob, alison. -/
def searchDemoState : MemStorage :=
  { initStorage with
    users := [{ id := 1, username := "alice", password := "pw", displayName := "Alice",
                bio := none, avatarUrl := "a.png", createdAt := 0 },
              { id := 2, username := "bob", password := "pw", displayName := "Bob",
                bio := none, avatarUrl := "b.png", createdAt := 1 },
              { id := 3, username := "alison", password := "pw", displayName := "Alison",
                bio := none, avatarUrl := "c.png", createdAt := 2 }]
    currentUserId := 4 }

/-- C8 (amended): the empty query returns the empty sequence (not all
users) in both variants.  The in-memory `searchUsers` returns exactly the
users whose lowercased handle or display name contains the lowercased
query as a contiguous substring, so on the scenario handles
{alice, bob, alison} the query "ali" — in either case — returns alice and
alison.  The exported `DatabaseStorage` variant instead matches with
Postgres `LIKE` and no lowercasing, i.e. case-sensitively: "ali" still
returns alice and alison, but "ALI" returns no users. -/
theorem searchUsers_spec (s : MemStorage) (q : String) (u : User) (hq : q ≠ "") :
    searchUsers s "" = [] ∧
    (u ∈ searchUsers s q ↔ u ∈ s.users ∧
      ((∃ l₁ l₂, u.username.data.map Char.toLower =
          l₁ ++ q.data.map Char.toLower ++ l₂) ∨
       (∃ l₁ l₂, u.displayName.data.map Char.toLower =
          l₁ ++ q.data.map Char.toLower ++ l₂))) ∧
    (searchUsers searchDemoState "ali").map User.username = ["alice", "alison"] ∧
    (searchUsers searchDemoState "ALI").map User.username = ["alice", "alison"] ∧
    dbSearchUsers s "" = [] ∧
    (u ∈ dbSearchUsers s q ↔ u ∈ s.users ∧
      ((∃ l₁ l₂, u.username.data = l₁ ++ q.data ++ l₂) ∨
       (∃ l₁ l₂, u.displayName.data = l₁ ++ q.data ++ l₂))) ∧
    (dbSearchUsers searchDemoState "ali").map User.username = ["alice", "alison"] ∧
    (dbSearchUsers searchDemoState "ALI").map User.username = [] := by
  have hqd : q.data ≠ [] := fun h => hq (String.ext h)
  refine ⟨rfl, ?_, by decide, by decide, rfl, ?_, by decide, by decide⟩
  · rw [searchUsers, if_neg (by simpa [List.isEmpty_iff] using hqd)]
    simp [List.mem_filter, userMatches, includesSeq_iff]
  · rw [dbSearchUsers, if_neg (by simpa [List.isEmpty_iff] using hqd)]
    simp [List.mem_filter, includesSeq_iff]

/-- Witness for C8 at a concrete input (query "ali", user alice). -/
theorem searchUsers_spec_witness :
    ("ali" : String) ≠ "" ∧
    (searchUsers searchDemoState "" = [] ∧
      ({ id := 1, username := "alice", password := "pw", displayName := "Alice",
         bio := none, avatarUrl := "a.png", createdAt := 0 : User } ∈
          searchUsers searchDemoState "ali" ↔
        { id := 1, username := "alice", password := "pw", displayName := "Alice",
          bio := none, avatarUrl := "a.png", createdAt := 0 : User } ∈
            searchDemoState.users ∧
        ((∃ l₁ l₂, ("alice" : String).data.map Char.toLower =
            l₁ ++ ("ali" : String).data.map Char.toLower ++ l₂) ∨
         (∃ l₁ l₂, ("Alice" : String).data.map Char.toLower =
            l₁ ++ ("ali" : String).data.map Char.toLower ++ l₂))) ∧
      (searchUsers searchDemoState "ali").map User.username = ["alice", "alison"] ∧
      (searchUsers searchDemoState "ALI").map User.username = ["alice", "alison"] ∧
      dbSearchUsers searchDemoState "" = [] ∧
      ({ id := 1, username := "alice", password := "pw", displayName := "Alice",
         bio := none, avatarUrl := "a.png", createdAt := 0 : User } ∈
          dbSearchUsers searchDemoState "ali" ↔
        { id := 1, username := "alice", password := "pw", displayName := "Alice",
          bio := none, avatarUrl := "a.png", createdAt := 0 : User } ∈
            searchDemoState.users ∧
        ((∃ l₁ l₂, ("alice" : String).data = l₁ ++ ("ali" : String).data ++ l₂) ∨
         (∃ l₁ l₂, ("Alice" : String).data = l₁ ++ ("ali" : String).data ++ l₂))) ∧
      (dbSearchUsers searchDemoState "ali").map User.username = ["alice", "alison"] ∧
      (dbSearchUsers searchDemoState "ALI").map User.username = []) :=
  ⟨by decide,
    searchUsers_spec searchDemoState "ali"
      { id := 1, username := "alice", password := "pw", displayName := "Alice",
        bio := none, avatarUrl := "a.png", createdAt := 0 } (by decide)⟩

/-- Counterexample to C8 as stated: the cited (and exported)
`DatabaseStorage.searchUsers` is not case-insensitive — against the
scenario handles {alice, bob, alison} the query "ALI" returns no users at
all, not {alice, alison}, while the in-memory variant returns both. -/
theorem dbSearch_case_sensitive_cex :
    (dbSearchUsers searchDemoState "ALI").map User.username = [] ∧
    (searchUsers searchDemoState "ALI").map User.username = ["alice", "alison"] :=
  ⟨by decide, by decide⟩

/-- `allSome` succeeds exactly on lists of present values. -/
theorem allSome_eq_some {α : Type} :
    ∀ {xs : List (Option α)} {ys : List α},
      allSome xs = some ys → xs = ys.map some := by
  intro xs
  induction xs with
  | nil =>
    intro ys h
    simp only [allSome, Option.some_inj] at h
    subst h
    rfl
  | cons x xs ih =>
    intro ys h
    cases x with
    | none => simp [allSome] at h
    | some a =>
      rw [allSome, Option.map_eq_some'] at h
      obtain ⟨zs, hz, rfl⟩ := h
      simp [ih hz]

/-- `allSome` succeeds when every entry is present. -/
theorem allSome_isSome {α : Type} :
    ∀ {xs : List (Option α)}, (∀ x ∈ xs, x.isSome) → (allSome xs).isSome := by
  intro xs
  induction xs with
  | nil => intro _; simp [allSome]
  | cons x xs ih =>
    intro h
    cases x with
    | none => simpa using h none (by simp)
    | some a =>
      rw [allSome]
      obtain ⟨zs, hz⟩ :=
        Option.isSome_iff_exists.mp (ih fun y hy => h y (List.mem_cons_of_mem _ hy))
      simp [hz]

/-- A user found by id carries that id. -/
theorem getUser_id {s : MemStorage} {j : Nat} {w : User}
    (h : getUser s j = some w) : w.id = j := by
  simpa using List.find?_some h

/-- When every row of a follow list resolves, the resolved users' ids are
the rows' `followingId`s, in order. -/
theorem resolved_following_ids (s : MemStorage) :
    ∀ (rows : List Follow) (fl : List User),
      rows.map (fun f => getUser s f.followingId) = fl.map some →
      fl.map (fun w => w.id) = rows.map (fun f => f.followingId) := by
  intro rows
  induction rows with
  | nil =>
    intro fl h
    cases fl with
    | nil => rfl
    | cons w ws => simp at h
  | cons r rs ih =>
    intro fl h
    cases fl with
    | nil => simp at h
    | cons w ws =>
      simp only [List.map_cons, List.cons.injEq] at h
      simp [getUser_id h.1, ih ws h.2]

/-- Enrichment preserves the underlying posts, in order. -/
theorem enrichPosts_map_post (s : MemStorage) (l : List Post) (v : Option Nat) :
    (enrichPosts s l v).map PostWithUser.post = l := by
  simp only [enrichPosts, List.map_map]
  exact List.map_id l

/-- A post occurs under some enriched entry iff it occurs in the input. -/
theorem mem_enrichPosts_post (s : MemStorage) (l : List Post) (v : Option Nat)
    (p : Post) : (∃ e ∈ enrichPosts s l v, e.post = p) ↔ p ∈ l := by
  constructor
  · rintro ⟨e, he, rfl⟩
    obtain ⟨p', hp', rfl⟩ := List.mem_map.mp he
    exact hp'
  · intro hp
    exact ⟨enrichPost s p v, List.mem_map_of_mem _ hp, rfl⟩

/-- The feed in explicit form, once the following set resolves. -/
theorem getFeedForUser_eq (s : MemStorage) (u : Nat) (fl : List User)
    (hfl : allSome (getFollowing s u) = some fl) :
    getFeedForUser s u = some (enrichPosts s
      ((s.posts.filter (fun p =>
          (fl.map (fun w => w.id)).contains p.userId || p.userId == u)).mergeSort
        newerFirst)
      (some u)) := by
  rw [getFeedForUser, hfl, Option.map_some']

/-- C2 (amended): whenever every follow row of `u` resolves to an existing
user (true of every state the HTTP layer can build for an existing
follower, but violated by dangling rows, where the source instead throws),
`getFeedForUser u` returns a feed holding exactly the posts authored by
`u` or authored by someone `u` follows. -/
theorem feed_membership (s : MemStorage) (u : Nat)
    (h : ∀ f ∈ s.follows, f.followerId = u → (getUser s f.followingId).isSome) :
    ∃ feed, getFeedForUser s u = some feed ∧
      ∀ p, ((∃ e ∈ feed, e.post = p) ↔
        p ∈ s.posts ∧ (p.userId = u ∨
          ∃ f ∈ s.follows, f.followerId = u ∧ f.followingId = p.userId)) := by
  have hall : ∀ x ∈ getFollowing s u, x.isSome := by
    intro x hx
    rw [getFollowing] at hx
    obtain ⟨f, hf, rfl⟩ := List.mem_map.mp hx
    rw [List.mem_filter] at hf
    exact h f hf.1 (by simpa using hf.2)
  obtain ⟨fl, hfl⟩ := Option.isSome_iff_exists.mp (allSome_isSome hall)
  refine ⟨_, getFeedForUser_eq s u fl hfl, ?_⟩
  intro p
  rw [mem_enrichPosts_post, List.mem_mergeSort, List.mem_filter]
  have hids : fl.map (fun w => w.id) =
      (s.follows.filter (fun f => f.followerId == u)).map (fun f => f.followingId) := by
    apply resolved_following_ids
    have h' := allSome_eq_some hfl
    rwa [getFollowing] at h'
  have hmem : ((fl.map (fun w => w.id)).contains p.userId || p.userId == u) = true ↔
      (p.userId = u ∨ ∃ f ∈ s.follows, f.followerId = u ∧ f.followingId = p.userId) := by
    rw [hids]
    simp only [Bool.or_eq_true, List.contains_iff_exists_mem_beq, List.mem_map,
      List.mem_filter, beq_iff_eq]
    constructor
    · rintro (⟨x, ⟨f, ⟨hf, hfr⟩, rfl⟩, hx⟩ | rfl)
      · exact Or.inr ⟨f, hf, hfr, hx.symm⟩
      · exact Or.inl rfl
    · rintro (rfl | ⟨f, hf, hfr, hfi⟩)
      · exact Or.inr rfl
      · exact Or.inl ⟨f.followingId, ⟨f, ⟨hf, by simp [hfr]⟩, rfl⟩, hfi.symm⟩
  rw [hmem]

/-- Concrete state for the C2 witness and the C4 witness: alice (1)
follows bob (2); each has one post, both posts sharing a timestamp. -/
def w4State : MemStorage :=
  { initStorage with
    users := [{ id := 1, username := "alice", password := "pw", displayName := "Alice",
                bio := none, avatarUrl := "a.png", createdAt := 0 },
              { id := 2, username := "bob", password := "pw", displayName := "Bob",
                bio := none, avatarUrl := "b.png", createdAt := 1 }]
    posts := [{ id := 1, userId := 2, content := "from bob", imageUrl := none, createdAt := 5 },
              { id := 2, userId := 1, content := "from alice", imageUrl := none, createdAt := 5 }]
    follows := [{ id := 1, followerId := 1, followingId := 2, createdAt := 2 }]
    currentUserId := 3, currentPostId := 3, currentFollowId := 2 }

/-- Witness for C2 at a concrete input. -/
theorem feed_membership_witness :
    (∀ f ∈ w4State.follows, f.followerId = 1 → (getUser w4State f.followingId).isSome) ∧
    (∃ feed, getFeedForUser w4State 1 = some feed ∧
      ∀ p, ((∃ e ∈ feed, e.post = p) ↔
        p ∈ w4State.posts ∧ (p.userId = 1 ∨
          ∃ f ∈ w4State.follows, f.followerId = 1 ∧ f.followingId = p.userId))) :=
  ⟨by decide, feed_membership w4State 1 (by decide)⟩

/-- Concrete state refuting C2 as stated: user 1 authored post 1 but also
follows the nonexistent user 2, so the feed computation fails (in the
source, `following.map(user => user.id)` throws) instead of returning a
feed containing the user's own post. -/
def c2State : MemStorage :=
  { initStorage with
    users := [{ id := 1, username := "alice", password := "pw", displayName := "Alice",
                bio := none, avatarUrl := "a.png", createdAt := 0 }]
    posts := [{ id := 1, userId := 1, content := "mine", imageUrl := none, createdAt := 0 }]
    follows := [{ id := 1, followerId := 1, followingId := 2, createdAt := 0 }]
    currentUserId := 2, currentPostId := 2, currentFollowId := 2 }

/-- Counterexample to C2 as stated: a post authored by user 1 exists, yet
`getFeedForUser 1` produces no feed at all, so the post is not included. -/
theorem feed_dangling_cex :
    (∃ p ∈ c2State.posts, p.userId = 1) ∧ getFeedForUser c2State 1 = none :=
  ⟨⟨{ id := 1, userId := 1, content := "mine", imageUrl := none, createdAt := 0 },
    by decide, rfl⟩, rfl⟩

/-- The feed comparator is transitive. -/
theorem newerFirst_trans :
    ∀ a b c : Post, newerFirst a b → newerFirst b c → newerFirst a c := by
  intro a b c
  simp only [newerFirst, decide_eq_true_eq]
  omega

/-- The feed comparator is total. -/
theorem newerFirst_total : ∀ a b : Post, newerFirst a b || newerFirst b a := by
  intro a b
  simp only [newerFirst, Bool.or_eq_true, decide_eq_true_eq]
  omega

/-- C4: `getDiscoverFeed` is ordered newest-first; a pair of posts with
equal timestamps keeps its insertion order (insertion order = store order
= id order for store-created posts); the same holds for any feed
`getFeedForUser` returns; and both are deterministic — repeated calls on
an unchanged state give the identical list (in this pure embedding, a
definitional equality). -/
theorem feeds_sorted_and_stable (s : MemStorage) (u : Nat)
    (feed : List PostWithUser) (hfeed : getFeedForUser s u = some feed)
    (p q : Post) (hts : p.createdAt = q.createdAt) :
    List.Pairwise (fun a b => b.post.createdAt ≤ a.post.createdAt) (getDiscoverFeed s) ∧
    ([p, q].Sublist s.posts →
      [p, q].Sublist ((getDiscoverFeed s).map PostWithUser.post)) ∧
    List.Pairwise (fun a b => b.post.createdAt ≤ a.post.createdAt) feed ∧
    (p ∈ feed.map PostWithUser.post → q ∈ feed.map PostWithUser.post →
      [p, q].Sublist s.posts → [p, q].Sublist (feed.map PostWithUser.post)) ∧
    getDiscoverFeed s = getDiscoverFeed s ∧
    (∀ feed2, getFeedForUser s u = some feed2 → feed2 = feed) := by
  have hpq : newerFirst p q := by
    simp only [newerFirst, decide_eq_true_eq, hts, Nat.le_refl]
  obtain ⟨fl, hfl, rfl⟩ := Option.map_eq_some'.mp hfeed
  have hdm : (getDiscoverFeed s).map PostWithUser.post =
      s.posts.mergeSort newerFirst := enrichPosts_map_post ..
  refine ⟨?_, ?_, ?_, ?_, rfl, ?_⟩
  · have hs := List.sorted_mergeSort newerFirst_trans newerFirst_total s.posts
    exact List.Pairwise.map _
      (fun a b h => by simpa [newerFirst] using h) hs
  · intro hsub
    rw [hdm]
    exact List.pair_sublist_mergeSort newerFirst_trans newerFirst_total hpq hsub
  · have hs := List.sorted_mergeSort newerFirst_trans newerFirst_total
      (s.posts.filter (fun p =>
        (fl.map (fun w => w.id)).contains p.userId || p.userId == u))
    exact List.Pairwise.map _
      (fun a b h => by simpa [newerFirst] using h) hs
  · intro hp hq hsub
    rw [enrichPosts_map_post] at hp hq ⊢
    have hpf := List.mem_filter.mp (List.mem_mergeSort.mp hp)
    have hqf := List.mem_filter.mp (List.mem_mergeSort.mp hq)
    have hsubf := hsub.filter (fun p =>
      (fl.map (fun w => w.id)).contains p.userId || p.userId == u)
    have hfilterpair :
        List.filter (fun r =>
          (fl.map (fun w => w.id)).contains r.userId || r.userId == u) [p, q] =
          [p, q] := by
      apply List.filter_eq_self.mpr
      intro a ha
      rcases List.mem_cons.mp ha with rfl | ha'
      · exact hpf.2
      · rcases List.mem_cons.mp ha' with rfl | ha''
        · exact hqf.2
        · cases ha''
    rw [hfilterpair] at hsubf
    exact List.pair_sublist_mergeSort newerFirst_trans newerFirst_total hpq hsubf
  · intro feed2 h2
    rw [hfeed] at h2
    exact (Option.some_inj.mp h2).symm

/-- The feed of the C4 witness state, as the program computes it. -/
def w4Feed : List PostWithUser := (getFeedForUser w4State 1).getD []

/-- The bob post of `w4State`. -/
def w4PostA : Post :=
  { id := 1, userId := 2, content := "from bob", imageUrl := none, createdAt := 5 }

/-- The alice post of `w4State`. -/
def w4PostB : Post :=
  { id := 2, userId := 1, content := "from alice", imageUrl := none, createdAt := 5 }

/-- Witness for C4 at a concrete input. -/
theorem feeds_sorted_and_stable_witness :
    (getFeedForUser w4State 1 = some w4Feed ∧ w4PostA.createdAt = w4PostB.createdAt) ∧
    (List.Pairwise (fun a b => b.post.createdAt ≤ a.post.createdAt)
        (getDiscoverFeed w4State) ∧
      ([w4PostA, w4PostB].Sublist w4State.posts →
        [w4PostA, w4PostB].Sublist ((getDiscoverFeed w4State).map PostWithUser.post)) ∧
      List.Pairwise (fun a b => b.post.createdAt ≤ a.post.createdAt) w4Feed ∧
      (w4PostA ∈ w4Feed.map PostWithUser.post → w4PostB ∈ w4Feed.map PostWithUser.post →
        [w4PostA, w4PostB].Sublist w4State.posts →
        [w4PostA, w4PostB].Sublist (w4Feed.map PostWithUser.post)) ∧
      getDiscoverFeed w4State = getDiscoverFeed w4State ∧
      (∀ feed2, getFeedForUser w4State 1 = some feed2 → feed2 = w4Feed)) :=
  ⟨⟨rfl, rfl⟩, feeds_sorted_and_stable w4State 1 w4Feed rfl w4PostA w4PostB rfl⟩

/-- No operation ever decreases an id counter. -/
theorem counterOf_step_mono (k : EntityKind) (s : MemStorage) (op : Op) :
    counterOf k s ≤ counterOf k (step s op) := by
  cases op with
  | createUser iu now pick => cases k <;> simp [step, createUser, counterOf]
  | updateUser id patch =>
    rw [step]
    unfold updateUser
    cases getUser s id <;> cases k <;> simp [counterOf]
  | createPost ip now => cases k <;> simp [step, createPost, counterOf]
  | updatePost id patch =>
    rw [step]
    unfold updatePost
    cases s.posts.find? (fun p => p.id == id) <;> cases k <;> simp [counterOf]
  | deletePost id => cases k <;> simp [step, deletePost, counterOf]
  | createComment ic now => cases k <;> simp [step, createComment, counterOf]
  | deleteComment id => cases k <;> simp [step, deleteComment, counterOf]
  | createLike il now => cases k <;> simp [step, createLike, counterOf]
  | deleteLike pid uid =>
    rw [step]
    unfold deleteLike
    cases getLike s pid uid <;> cases k <;> simp [counterOf]
  | createFollow ifl now => cases k <;> simp [step, createFollow, counterOf]
  | deleteFollow a b =>
    rw [step]
    unfold deleteFollow
    cases getFollow s a b <;> cases k <;> simp [counterOf]

/-- A create assigns exactly the current counter and leaves the counter
strictly larger. -/
theorem assignedId_spec (s : MemStorage) (op : Op) (k : EntityKind) (i : Nat)
    (h : assignedId s op = some (k, i)) :
    i = counterOf k s ∧ counterOf k s < counterOf k (step s op) := by
  cases op with
  | createUser iu now pick =>
    simp only [assignedId, Option.some_inj, Prod.mk.injEq] at h
    obtain ⟨rfl, rfl⟩ := h
    exact ⟨rfl, by simp [step, createUser, counterOf]⟩
  | createPost ip now =>
    simp only [assignedId, Option.some_inj, Prod.mk.injEq] at h
    obtain ⟨rfl, rfl⟩ := h
    exact ⟨rfl, by simp [step, createPost, counterOf]⟩
  | createComment ic now =>
    simp only [assignedId, Option.some_inj, Prod.mk.injEq] at h
    obtain ⟨rfl, rfl⟩ := h
    exact ⟨rfl, by simp [step, createComment, counterOf]⟩
  | createLike il now =>
    simp only [assignedId, Option.some_inj, Prod.mk.injEq] at h
    obtain ⟨rfl, rfl⟩ := h
    exact ⟨rfl, by simp [step, createLike, counterOf]⟩
  | createFollow ifl now =>
    simp only [assignedId, Option.some_inj, Prod.mk.injEq] at h
    obtain ⟨rfl, rfl⟩ := h
    exact ⟨rfl, by simp [step, createFollow, counterOf]⟩
  | updateUser id patch => simp [assignedId] at h
  | updatePost id patch => simp [assignedId] at h
  | deletePost id => simp [assignedId] at h
  | deleteComment id => simp [assignedId] at h
  | deleteLike pid uid => simp [assignedId] at h
  | deleteFollow a b => simp [assignedId] at h

/-- Every id a run assigns for a kind is at least the kind's counter at
the start of the run. -/
theorem idTrace_lower :
    ∀ (ops : List Op) (s : MemStorage) (k : EntityKind) (i : Nat),
      (k, i) ∈ idTrace s ops → counterOf k s ≤ i := by
  intro ops
  induction ops with
  | nil => intro s k i h; simp [idTrace] at h
  | cons op ops ih =>
    intro s k i h
    rw [idTrace] at h
    rcases List.mem_append.mp h with h1 | h2
    · cases hassign : assignedId s op with
      | none => rw [hassign] at h1; simp at h1
      | some e =>
        rw [hassign] at h1
        simp only [Option.toList_some, List.mem_singleton] at h1
        rw [← h1] at hassign
        exact (assignedId_spec s op k i hassign).1.ge
    · exact le_trans (counterOf_step_mono k s op) (ih (step s op) k i h2)

/-- Membership in the per-kind id projection of a trace. -/
theorem mem_idsOfKind {k : EntityKind} {tr : List (EntityKind × Nat)} {i : Nat} :
    i ∈ idsOfKind k tr ↔ (k, i) ∈ tr := by
  rw [idsOfKind]
  simp only [List.mem_filterMap]
  constructor
  · rintro ⟨⟨k', j⟩, hmem, h⟩
    simp only at h
    split at h
    · next hk =>
      obtain rfl : j = i := by simpa using h
      obtain rfl : k' = k := by simpa using hk
      exact hmem
    · simp at h
  · intro hmem
    exact ⟨(k, i), hmem, by simp⟩

/-- `idsOfKind` distributes over trace concatenation. -/
theorem idsOfKind_append (k : EntityKind) (a b : List (EntityKind × Nat)) :
    idsOfKind k (a ++ b) = idsOfKind k a ++ idsOfKind k b := by
  simp [idsOfKind, List.filterMap_append]

/-- From any starting state, each kind's assigned ids along a run are
strictly increasing. -/
theorem idsOfKind_pairwise :
    ∀ (ops : List Op) (s : MemStorage) (k : EntityKind),
      List.Pairwise (· < ·) (idsOfKind k (idTrace s ops)) := by
  intro ops
  induction ops with
  | nil => intro s k; simp [idTrace, idsOfKind]
  | cons op ops ih =>
    intro s k
    rw [idTrace, idsOfKind_append]
    apply List.pairwise_append.mpr
    refine ⟨?_, ih (step s op) k, ?_⟩
    · cases hassign : assignedId s op with
      | none => simp [idsOfKind]
      | some e =>
        simp only [Option.toList_some]
        rw [idsOfKind]
        simp only [List.filterMap]
        split <;> simp
    · intro x hx y hy
      cases hassign : assignedId s op with
      | none => rw [hassign] at hx; simp [idsOfKind] at hx
      | some e =>
        rw [hassign] at hx
        rw [Option.toList_some] at hx
        have hxk : (k, x) ∈ [e] := mem_idsOfKind.mp hx
        simp only [List.mem_singleton] at hxk
        rw [← hxk] at hassign
        obtain ⟨hx1, hx2⟩ := assignedId_spec s op k x hassign
        have hy' : counterOf k (step s op) ≤ y :=
          idTrace_lower ops (step s op) k y (mem_idsOfKind.mp hy)
        omega

/-- C9: starting from the store constructor's state, across every
sequence of store operations each entity kind's create-assigned
identities are strictly increasing and no identity is ever assigned
twice, even after the entity holding it is deleted. -/
theorem identity_assignment_monotone (ops : List Op) (k : EntityKind) :
    List.Pairwise (· < ·) (idsOfKind k (idTrace initStorage ops)) ∧
    (idsOfKind k (idTrace initStorage ops)).Nodup := by
  have h := idsOfKind_pairwise ops initStorage k
  exact ⟨h, h.imp Nat.ne_of_lt⟩

end Social
